import Mathlib

/-!
Shallow embedding of the stm32-discovery HAL core: the reset-and-control-clock
(RCC) clock tree (`src/source/HAL/hal_rcc.h`), the interrupt-driven SPI
transfer engine (`src/source/HAL/hal_spi.h`), the ring buffer backing it, and
the OS semaphore stub (`src/source/OS/semaphore.h`).

The repository ships the class declarations and register-bit enumerations in
headers; the method bodies of `ResetControlClock`, `SPIInterrupt` and the
`RingBuffer` template are not part of the source tree.  Where a body is
missing, the definition below is modelled from the specification's words and
its doc comment says so explicitly.  The `Sempahore` bodies are present in the
source (empty) and are translated directly.

Machine integers (`uint32_t` frequencies, `uint8_t` bytes) are modelled as
`Nat`; every frequency produced by a valid PLL configuration is at most the
VCO ceiling of 432 MHz, far below `2^32`, so no wrap-around arithmetic occurs
on any path the theorems touch.
-/

set_option autoImplicit false

/-! ## Ring buffer

Modelled from the spec: `ring_buffer.h` is included by `hal_spi.h` and
`semaphore.h` but its implementation is not in the source tree.  Spec §3
describes `RingBuffer<T>` as a fixed-capacity array of `T`, a read index, a
write index, and a count; §4.2 gives `push`/`pop`/`len`/`is_full`/`is_empty`.
Following spec §9, the reject-on-full policy is taken, which §8's tests
assume for the transmit path.  The element type is `Nat`, standing for the
`uint8_t` bytes both instantiations in the source use; the fixed-capacity
array is modelled as its index-to-value map. -/
structure RingBuffer where
  capacity : Nat
  data : Nat → Nat
  read_index : Nat
  write_index : Nat
  count : Nat

/-- Write value `v` into slot `i` of the backing array. -/
def RingBuffer.writeAt (f : Nat → Nat) (i v : Nat) : Nat → Nat :=
  fun j => if j = i then v else f j

/-- Modelled from the spec: a `RingBuffer` freshly constructed with capacity
`cap` (created with a fixed capacity at driver construction, §3). -/
def RingBuffer.mkEmpty (cap : Nat) : RingBuffer :=
  { capacity := cap, data := fun _ => 0, read_index := 0, write_index := 0, count := 0 }

/-- Modelled from the spec: `push(item) -> bool` succeeds if count < capacity,
else fails (reject policy); on success the item is stored at the write index,
the write index advances circularly and the count grows (§4.2). -/
def RingBuffer.push (s : RingBuffer) (item : Nat) : RingBuffer × Bool :=
  if s.count < s.capacity then
    ({ s with data := RingBuffer.writeAt s.data s.write_index item,
              write_index := (s.write_index + 1) % s.capacity,
              count := s.count + 1 }, true)
  else
    (s, false)

/-- Modelled from the spec: `pop() -> optional<T>` returns the oldest item and
advances the read index, or empty if count == 0 (§4.2). -/
def RingBuffer.pop (s : RingBuffer) : Option Nat × RingBuffer :=
  if s.count = 0 then
    (none, s)
  else
    (some (s.data s.read_index),
     { s with read_index := (s.read_index + 1) % s.capacity, count := s.count - 1 })

/-- Modelled from the spec: `len()` O(1) introspection (§4.2). -/
def RingBuffer.len (s : RingBuffer) : Nat := s.count

/-- Modelled from the spec: `is_full()` O(1) introspection (§4.2). -/
def RingBuffer.is_full (s : RingBuffer) : Bool := s.capacity ≤ s.count

/-- Modelled from the spec: `is_empty()` O(1) introspection (§4.2). -/
def RingBuffer.is_empty (s : RingBuffer) : Bool := s.count = 0

/-- Structural invariant of spec §3: 0 < capacity, both indices in
[0, capacity), 0 ≤ count ≤ capacity, and the write index sits `count` slots
(circularly) ahead of the read index. -/
def RingBuffer.WF (s : RingBuffer) : Prop :=
  0 < s.capacity ∧ s.read_index < s.capacity ∧ s.write_index < s.capacity ∧
    s.count ≤ s.capacity ∧ s.write_index = (s.read_index + s.count) % s.capacity

instance (s : RingBuffer) : Decidable s.WF := by
  unfold RingBuffer.WF; infer_instance

/-- Abstraction function: the buffered elements, oldest first. -/
def RingBuffer.contents (s : RingBuffer) : List Nat :=
  (List.range s.count).map (fun i => s.data ((s.read_index + i) % s.capacity))

/-- An abstract operation on a ring buffer: attempt a push of a value, or a
pop (spec §8 quantifies over sequences of push/pop operations). -/
inductive RingOp where
  | push (v : Nat)
  | pop
deriving Repr, DecidableEq

/-- Apply one operation; also report how many pushes were accepted (0 or 1)
and how many pops were performed, i.e. returned an item (0 or 1). -/
def RingBuffer.applyOp (s : RingBuffer) : RingOp → RingBuffer × Nat × Nat
  | RingOp.push v =>
      let r := s.push v
      (r.1, if r.2 then 1 else 0, 0)
  | RingOp.pop =>
      let r := s.pop
      (r.2, 0, if r.1.isSome then 1 else 0)

/-- Run a sequence of operations, accumulating the number of accepted pushes
and performed pops. -/
def RingBuffer.runOps (s : RingBuffer) : List RingOp → RingBuffer × Nat × Nat
  | [] => (s, 0, 0)
  | op :: rest =>
      let r := s.applyOp op
      let t := r.1.runOps rest
      (t.1, r.2.1 + t.2.1, r.2.2 + t.2.2)

/-! ## Reset and control clock (RCC)

The enumerations below are translated from `src/source/HAL/hal_rcc.h`; the
`ResetControlClock` method bodies are not in the source tree and are modelled
from spec §4.1 and §7. -/

/-- Enumeration of RCC clocks (`enum class Clocks`, hal_rcc.h). -/
inductive Clocks where
  | AHB1
  | AHB2
  | AHB3
  | APB1
  | APB2
deriving Repr, DecidableEq

/-- Structure to store clock speeds (`ClockSpeed`, hal_rcc.h): a single `ahb`
frequency field is shared by the three AHB busses. -/
structure ClockSpeed where
  system_clock : Nat
  ahb : Nat
  apb1 : Nat
  apb2 : Nat
  ahb_scaler : Nat
  apb1_scaler : Nat
  apb2_scaler : Nat
deriving Repr, DecidableEq

/-- Clock source selector for the main PLL (`enum class PLLSource`). -/
inductive PLLSource where
  | high_speed_internal
  | high_speed_external
deriving Repr, DecidableEq

/-- Prescaler modes for the main PLL output divisor PLL_P
(`enum class PLLOutputPrescaler`). -/
inductive PLLOutputPrescaler where
  | prescaler_2
  | prescaler_4
  | prescaler_6
  | prescaler_8
deriving Repr, DecidableEq

/-- Output divisor encoded by a `PLLOutputPrescaler` value. -/
def PLLOutputPrescaler.divisor : PLLOutputPrescaler → Nat
  | prescaler_2 => 2
  | prescaler_4 => 4
  | prescaler_6 => 6
  | prescaler_8 => 8

/-- Enumeration of system clock sources (`enum class SystemClockSource`). -/
inductive SystemClockSource where
  | high_speed_internal
  | high_speed_external
  | phase_locked_loop
  | none
deriving Repr, DecidableEq

/-- Prescalers for the high speed bus/system clock (`enum class AHBPrescaler`). -/
inductive AHBPrescaler where
  | prescaler_none
  | prescaler_2
  | prescaler_4
  | prescaler_8
  | prescaler_16
  | prescaler_64
  | prescaler_128
  | prescaler_256
  | prescaler_512
deriving Repr, DecidableEq

/-- Divisor applied by an `AHBPrescaler` value. -/
def AHBPrescaler.divisor : AHBPrescaler → Nat
  | prescaler_none => 1
  | prescaler_2 => 2
  | prescaler_4 => 4
  | prescaler_8 => 8
  | prescaler_16 => 16
  | prescaler_64 => 64
  | prescaler_128 => 128
  | prescaler_256 => 256
  | prescaler_512 => 512

/-- Register code of an `AHBPrescaler` value (hal_rcc.h bit patterns). -/
def AHBPrescaler.code : AHBPrescaler → Nat
  | prescaler_none => 0b0000
  | prescaler_2 => 0b1000
  | prescaler_4 => 0b1001
  | prescaler_8 => 0b1010
  | prescaler_16 => 0b1011
  | prescaler_64 => 0b1100
  | prescaler_128 => 0b1101
  | prescaler_256 => 0b1110
  | prescaler_512 => 0b1111

/-- Prescalers for the peripheral busses (`enum class APBPrescaler`). -/
inductive APBPrescaler where
  | prescaler_none
  | prescaler_2
  | prescaler_4
  | prescaler_8
  | prescaler_16
deriving Repr, DecidableEq

/-- Divisor applied by an `APBPrescaler` value. -/
def APBPrescaler.divisor : APBPrescaler → Nat
  | prescaler_none => 1
  | prescaler_2 => 2
  | prescaler_4 => 4
  | prescaler_8 => 8
  | prescaler_16 => 16

/-- Register code of an `APBPrescaler` value (hal_rcc.h bit patterns). -/
def APBPrescaler.code : APBPrescaler → Nat
  | prescaler_none => 0b000
  | prescaler_2 => 0b100
  | prescaler_4 => 0b101
  | prescaler_8 => 0b110
  | prescaler_16 => 0b111

/-- Enumeration of bit offsets for ahb1 clocks (`enum class AHB1Clocks`). -/
inductive AHB1Clocks where
  | gpio_a
  | gpio_b
  | gpio_c
  | gpio_d
  | gpio_e
  | gpio_f
  | gpio_g
  | gpio_h
  | gpio_i
  | crc
  | backup_sram
  | ccm_data_ram
  | dma_1
  | dma_2
  | ethernet_mac
  | ethernet_mac_tx
  | ethernet_mac_rx
  | ethernet_ptp
  | usb_otg
  | usb_otg_hsulpi
deriving Repr, DecidableEq

/-- Bit offset of an `AHB1Clocks` value (hal_rcc.h). -/
def AHB1Clocks.bit : AHB1Clocks → Nat
  | gpio_a => 0
  | gpio_b => 1
  | gpio_c => 2
  | gpio_d => 3
  | gpio_e => 4
  | gpio_f => 5
  | gpio_g => 6
  | gpio_h => 7
  | gpio_i => 8
  | crc => 12
  | backup_sram => 18
  | ccm_data_ram => 20
  | dma_1 => 21
  | dma_2 => 22
  | ethernet_mac => 25
  | ethernet_mac_tx => 26
  | ethernet_mac_rx => 27
  | ethernet_ptp => 28
  | usb_otg => 29
  | usb_otg_hsulpi => 30

/-- Enumeration of bit offsets for ahb2 clocks (`enum class AHB2Clocks`). -/
inductive AHB2Clocks where
  | digital_camera_interface
  | cryptography
  | hash
  | random_number_generator
  | usb_otg_fs
deriving Repr, DecidableEq

/-- Bit offset of an `AHB2Clocks` value (hal_rcc.h). -/
def AHB2Clocks.bit : AHB2Clocks → Nat
  | digital_camera_interface => 0
  | cryptography => 4
  | hash => 5
  | random_number_generator => 6
  | usb_otg_fs => 7

/-- Enumeration of bit offsets for ahb3 clocks (`enum class AHB3Clocks`). -/
inductive AHB3Clocks where
  | static_memory_controller
deriving Repr, DecidableEq

/-- Bit offset of an `AHB3Clocks` value (hal_rcc.h). -/
def AHB3Clocks.bit : AHB3Clocks → Nat
  | static_memory_controller => 0

/-- Enumeration of bit offsets for apb1 clocks (`enum class APB1Clocks`). -/
inductive APB1Clocks where
  | timer_2
  | timer_3
  | timer_4
  | timer_5
  | timer_6
  | timer_7
  | timer_12
  | timer_13
  | timer_14
  | window_watchdog
  | spi_2
  | spi_3
  | usart_2
  | usart_3
  | uart_4
  | uart_5
  | i2c_1
  | i2c_2
  | i2c_3
  | can_1
  | can_2
  | power_management
  | dac
deriving Repr, DecidableEq

/-- Bit offset of an `APB1Clocks` value (hal_rcc.h). -/
def APB1Clocks.bit : APB1Clocks → Nat
  | timer_2 => 0
  | timer_3 => 1
  | timer_4 => 2
  | timer_5 => 3
  | timer_6 => 4
  | timer_7 => 5
  | timer_12 => 6
  | timer_13 => 7
  | timer_14 => 8
  | window_watchdog => 11
  | spi_2 => 14
  | spi_3 => 15
  | usart_2 => 17
  | usart_3 => 18
  | uart_4 => 19
  | uart_5 => 20
  | i2c_1 => 21
  | i2c_2 => 22
  | i2c_3 => 23
  | can_1 => 25
  | can_2 => 26
  | power_management => 28
  | dac => 29

/-- Enumeration of bit offsets for apb2 clocks (`enum class APB2Clocks`). -/
inductive APB2Clocks where
  | timer_1
  | timer_8
  | usart_1
  | usart_6
  | adc_1
  | adc_2
  | adc_3
  | sdio
  | spi_1
  | sys_config
  | timer_9
  | timer_10
  | timer_11
deriving Repr, DecidableEq

/-- Bit offset of an `APB2Clocks` value (hal_rcc.h). -/
def APB2Clocks.bit : APB2Clocks → Nat
  | timer_1 => 0
  | timer_8 => 1
  | usart_1 => 4
  | usart_6 => 5
  | adc_1 => 8
  | adc_2 => 9
  | adc_3 => 10
  | sdio => 11
  | spi_1 => 12
  | sys_config => 14
  | timer_9 => 16
  | timer_10 => 17
  | timer_11 => 18

/-- Errors of the clock-tree configuration API (spec §7: configuration and
timing error taxonomy). -/
inductive RCCError where
  | InvalidPLLConfiguration
  | SourceBusyError
  | SourceNotReadyError
deriving Repr, DecidableEq

/-- PLL parameter record (spec §3 `PLLParameters`): clock source, input
oscillator frequency in Hz, input divisor M, multiplier N, output divisor P
and USB divisor Q, matching the argument list of `configure_main_pll`. -/
structure PLLConfiguration where
  clock_source : PLLSource
  oscillator_speed : Nat
  pll_m : Nat
  pll_n : Nat
  pll_p : PLLOutputPrescaler
  pll_q : Nat
deriving Repr, DecidableEq

/-- Internal high speed oscillator frequency in Hz (spec §8: HSI is 16 MHz). -/
def hsi_frequency : Nat := 16000000

/-- VCO input frequency of a PLL configuration: input frequency divided by M
(integer arithmetic, spec §3). -/
def PLLConfiguration.vco_input (c : PLLConfiguration) : Nat :=
  c.oscillator_speed / c.pll_m

/-- VCO frequency of a PLL configuration: input ÷ M × N (spec §3). -/
def PLLConfiguration.vco_frequency (c : PLLConfiguration) : Nat :=
  c.oscillator_speed / c.pll_m * c.pll_n

/-- PLL output frequency: VCO frequency divided by the P divisor (spec §3),
i.e. `input_frequency / m * n / p` in integer arithmetic. -/
def PLLConfiguration.output_frequency (c : PLLConfiguration) : Nat :=
  c.oscillator_speed / c.pll_m * c.pll_n / c.pll_p.divisor

/-- Modelled from the spec: the §3 `PLLParameters` invariant.  The input
frequency divided by M must lie in the oscillator's valid input range (spec:
commonly 1–2 MHz) and the VCO frequency input ÷ M × N must lie in a valid VCO
range (the STM32F4 engineering range of 100–432 MHz is used). -/
def PLLConfiguration.valid (c : PLLConfiguration) : Bool :=
  1000000 ≤ c.vco_input && c.vco_input ≤ 2000000 &&
    100000000 ≤ c.vco_frequency && c.vco_frequency ≤ 432000000

/-- State of the `ResetControlClock` singleton.  The register file behind the
`RCC_TypeDef*` pointer is modelled by its decoded fields: the selected system
clock source, the programmed PLL parameters, the three bus prescalers and the
five peripheral clock-gating enable registers; `clock_configuration` is the
cached `ClockSpeed` member of the class. -/
structure ResetControlClock where
  system_clock_source : SystemClockSource
  pll : Option PLLConfiguration
  hse_frequency : Nat
  ahb_prescaler : AHBPrescaler
  apb1_prescaler : APBPrescaler
  apb2_prescaler : APBPrescaler
  ahb1_enable_register : Nat
  ahb2_enable_register : Nat
  ahb3_enable_register : Nat
  apb1_enable_register : Nat
  apb2_enable_register : Nat
  clock_configuration : ClockSpeed
deriving Repr, DecidableEq

/-- Modelled from the spec: the frequency of the currently selected system
clock source (§6: oscillator frequencies in Hz; PLL output per §3). -/
def ResetControlClock.system_clock_frequency (s : ResetControlClock) : Nat :=
  match s.system_clock_source with
  | SystemClockSource.high_speed_internal => hsi_frequency
  | SystemClockSource.high_speed_external => s.hse_frequency
  | SystemClockSource.phase_locked_loop =>
      match s.pll with
      | some c => c.output_frequency
      | Option.none => 0
  | SystemClockSource.none => 0

/-- Modelled from the spec: the private `save_clock_configuration` method
recomputes and caches every derived bus frequency — each bus frequency equals
the system clock divided by its prescaler divisor (§3, §4.1). -/
def ResetControlClock.save_clock_configuration (s : ResetControlClock) : ResetControlClock :=
  let f := s.system_clock_frequency
  { s with clock_configuration :=
      { system_clock := f
        ahb := f / s.ahb_prescaler.divisor
        apb1 := f / s.apb1_prescaler.divisor
        apb2 := f / s.apb2_prescaler.divisor
        ahb_scaler := s.ahb_prescaler.code
        apb1_scaler := s.apb1_prescaler.code
        apb2_scaler := s.apb2_prescaler.code } }

/-- Modelled from the spec: `configure_main_pll` (§4.1).  Attempting to
reconfigure the PLL while it is the active system clock source fails with
`SourceBusyError`; violating a §3 parameter invariant fails with
`InvalidPLLConfiguration`; both failures happen before any register write and
return the state unchanged.  On success the divisor fields are programmed and
the cached configuration refreshed. -/
def ResetControlClock.configure_main_pll (s : ResetControlClock) (clock_source : PLLSource)
    (oscillator_speed : Nat) (pll_m : Nat) (pll_n : Nat) (pll_p : PLLOutputPrescaler)
    (pll_q : Nat) : ResetControlClock × Option RCCError :=
  if s.system_clock_source = SystemClockSource.phase_locked_loop then
    (s, some RCCError.SourceBusyError)
  else
    let c : PLLConfiguration :=
      { clock_source := clock_source, oscillator_speed := oscillator_speed,
        pll_m := pll_m, pll_n := pll_n, pll_p := pll_p, pll_q := pll_q }
    if c.valid then
      (ResetControlClock.save_clock_configuration { s with pll := some c }, Option.none)
    else
      (s, some RCCError.InvalidPLLConfiguration)

/-- Modelled from the spec: `set_system_clock_source` (§4.1).  The caller is
polled against the target source's ready status bit, sampled as `ready t` on
poll `t`, for at most `timeout` polls; if the bit is never seen the call fails
with `SourceNotReadyError` without switching, otherwise the source is switched
and every derived bus frequency recomputed and cached. -/
def ResetControlClock.set_system_clock_source (s : ResetControlClock)
    (source : SystemClockSource) (ready : Nat → Bool) (timeout : Nat) :
    ResetControlClock × Option RCCError :=
  if (List.range timeout).any ready then
    (ResetControlClock.save_clock_configuration { s with system_clock_source := source },
     Option.none)
  else
    (s, some RCCError.SourceNotReadyError)

/-- Modelled from the spec: `configure_ahb_clock` programs the AHB divisor
field and recomputes the cached `ClockConfiguration` (§4.1). -/
def ResetControlClock.configure_ahb_clock (s : ResetControlClock)
    (prescaler : AHBPrescaler) : ResetControlClock :=
  ResetControlClock.save_clock_configuration { s with ahb_prescaler := prescaler }

/-- Modelled from the spec: `configure_apb1_clock` programs the APB1 divisor
field and recomputes the cached `ClockConfiguration` (§4.1). -/
def ResetControlClock.configure_apb1_clock (s : ResetControlClock)
    (prescaler : APBPrescaler) : ResetControlClock :=
  ResetControlClock.save_clock_configuration { s with apb1_prescaler := prescaler }

/-- Modelled from the spec: `configure_apb2_clock` programs the APB2 divisor
field and recomputes the cached `ClockConfiguration` (§4.1). -/
def ResetControlClock.configure_apb2_clock (s : ResetControlClock)
    (prescaler : APBPrescaler) : ResetControlClock :=
  ResetControlClock.save_clock_configuration { s with apb2_prescaler := prescaler }

/-- Set or clear bit `i` of a 32-bit enable register held as a `Nat`. -/
def ResetControlClock.apply_enable_bit (reg : Nat) (i : Nat) (enable : Bool) : Nat :=
  if enable then reg ||| 2 ^ i else reg &&& (0xFFFFFFFF ^^^ 2 ^ i)

/-- Modelled from the spec: `set_ahb_clock(AHB1Clocks, bool)` toggles a single
peripheral's clock-gating bit, no validation beyond bit identity (§4.1). -/
def ResetControlClock.set_ahb_clock_ahb1 (s : ResetControlClock) (clock : AHB1Clocks)
    (enable : Bool) : ResetControlClock :=
  { s with ahb1_enable_register :=
      ResetControlClock.apply_enable_bit s.ahb1_enable_register clock.bit enable }

/-- Modelled from the spec: `set_ahb_clock(AHB2Clocks, bool)` (§4.1). -/
def ResetControlClock.set_ahb_clock_ahb2 (s : ResetControlClock) (clock : AHB2Clocks)
    (enable : Bool) : ResetControlClock :=
  { s with ahb2_enable_register :=
      ResetControlClock.apply_enable_bit s.ahb2_enable_register clock.bit enable }

/-- Modelled from the spec: `set_ahb_clock(AHB3Clocks, bool)` (§4.1). -/
def ResetControlClock.set_ahb_clock_ahb3 (s : ResetControlClock) (clock : AHB3Clocks)
    (enable : Bool) : ResetControlClock :=
  { s with ahb3_enable_register :=
      ResetControlClock.apply_enable_bit s.ahb3_enable_register clock.bit enable }

/-- Modelled from the spec: `set_apb_clock(APB1Clocks, bool)` (§4.1). -/
def ResetControlClock.set_apb_clock_apb1 (s : ResetControlClock) (clock : APB1Clocks)
    (enable : Bool) : ResetControlClock :=
  { s with apb1_enable_register :=
      ResetControlClock.apply_enable_bit s.apb1_enable_register clock.bit enable }

/-- Modelled from the spec: `set_apb_clock(APB2Clocks, bool)` (§4.1). -/
def ResetControlClock.set_apb_clock_apb2 (s : ResetControlClock) (clock : APB2Clocks)
    (enable : Bool) : ResetControlClock :=
  { s with apb2_enable_register :=
      ResetControlClock.apply_enable_bit s.apb2_enable_register clock.bit enable }

/-- Modelled from the spec: `get_clock_speed` returns the cached frequency for
the named bus, never recomputing on the read path (§4.1); the three AHB busses
all read the single `ahb` field of the cached `ClockSpeed`. -/
def ResetControlClock.get_clock_speed (s : ResetControlClock) (clock : Clocks) : Nat :=
  match clock with
  | Clocks.AHB1 => s.clock_configuration.ahb
  | Clocks.AHB2 => s.clock_configuration.ahb
  | Clocks.AHB3 => s.clock_configuration.ahb
  | Clocks.APB1 => s.clock_configuration.apb1
  | Clocks.APB2 => s.clock_configuration.apb2

/-- Modelled from the spec: hardware-reset construction state — the device
boots on the internal oscillator with no PLL programmed, undivided busses, and
the cache initialized from those defaults (§3 lifecycle). -/
def ResetControlClock.reset_state : ResetControlClock :=
  ResetControlClock.save_clock_configuration
    { system_clock_source := SystemClockSource.high_speed_internal
      pll := Option.none
      hse_frequency := 8000000
      ahb_prescaler := AHBPrescaler.prescaler_none
      apb1_prescaler := APBPrescaler.prescaler_none
      apb2_prescaler := APBPrescaler.prescaler_none
      ahb1_enable_register := 0
      ahb2_enable_register := 0
      ahb3_enable_register := 0
      apb1_enable_register := 0
      apb2_enable_register := 0
      clock_configuration :=
        { system_clock := 0, ahb := 0, apb1 := 0, apb2 := 0,
          ahb_scaler := 0, apb1_scaler := 0, apb2_scaler := 0 } }

/-- The cached `ClockConfiguration` is consistent: every cached bus frequency
equals the system clock divided by that bus's prescaler divisor, and the
cached system clock matches the selected source (spec §3 invariant). -/
def ResetControlClock.cache_consistent (s : ResetControlClock) : Prop :=
  s.clock_configuration.system_clock = s.system_clock_frequency ∧
    s.clock_configuration.ahb = s.system_clock_frequency / s.ahb_prescaler.divisor ∧
    s.clock_configuration.apb1 = s.system_clock_frequency / s.apb1_prescaler.divisor ∧
    s.clock_configuration.apb2 = s.system_clock_frequency / s.apb2_prescaler.divisor

instance (s : ResetControlClock) : Decidable s.cache_consistent := by
  unfold ResetControlClock.cache_consistent; infer_instance

/-! ## SPI transfer engine

The `SPIInterrupt` class of `src/source/HAL/hal_spi.h` declares `irq_handler`
and `send` and owns a transmit and a receive ring buffer; the two method
bodies are not in the source tree and are modelled from spec §4.3. -/

/-- Transfer state machine states (spec §3 `TransferState`). -/
inductive TransferState where
  | Idle
  | Transmitting
  | Receiving
  | Error
deriving Repr, DecidableEq

/-- Hardware events delivered to `irq_handler` (spec §4.3): a transmit-empty
event, or a receive-data-available event carrying the byte sitting in the
peripheral's data register. -/
inductive SpiEvent where
  | transmit_empty
  | receive_available (byte : Nat)
deriving Repr, DecidableEq

/-- State of an interrupt-driven SPI peripheral (`class SPIInterrupt`): the
two ring buffers from the source declaration, plus — modelled from spec §4.3 —
the transfer state machine, the interrupt-enable bits of control register 2,
an overrun latch, and the log of bytes written to the peripheral's data
register (oldest first). -/
structure SPIInterrupt where
  state : TransferState
  tx_buffer : RingBuffer
  rx_buffer : RingBuffer
  transmit_interrupt_enable : Bool
  receive_interrupt_enable : Bool
  error_interrupt_enable : Bool
  overrun : Bool
  data_register_writes : List Nat

/-- Modelled from the spec: `send(data, size)` pushes the bytes into the
transmit buffer (partial fill when the buffer is smaller: rejected bytes are
dropped), enables the transmit-buffer-empty interrupt, and moves an idle
engine to Transmitting when size > 0 (§4.3). -/
def SPIInterrupt.send (s : SPIInterrupt) (data : List Nat) : SPIInterrupt :=
  if data.isEmpty then s
  else
    { s with
        tx_buffer := data.foldl (fun b v => (b.push v).1) s.tx_buffer,
        transmit_interrupt_enable := true,
        state := if s.state = TransferState.Idle then TransferState.Transmitting else s.state }

/-- Modelled from the spec: `irq_handler` (§4.3).  The Error state is sticky:
no event is processed until an explicit caller-invoked recovery.  A
transmit-empty event pops one byte from the transmit buffer and writes it to
the peripheral's data register; when the buffer becomes empty the transmit
interrupt is disabled and the engine returns to Idle.  A
receive-data-available event reads the data register and pushes the byte into
the receive buffer; when the push fails the engine transitions to Error,
latches the overrun condition, and disables the receive and error interrupt
sources. -/
def SPIInterrupt.irq_handler (s : SPIInterrupt) (event : SpiEvent) : SPIInterrupt :=
  if s.state = TransferState.Error then s
  else
    match event with
    | SpiEvent.transmit_empty =>
        match s.tx_buffer.pop with
        | (some b, tx) =>
            if tx.count = 0 then
              { s with tx_buffer := tx,
                       data_register_writes := s.data_register_writes ++ [b],
                       transmit_interrupt_enable := false,
                       state := TransferState.Idle }
            else
              { s with tx_buffer := tx,
                       data_register_writes := s.data_register_writes ++ [b],
                       state := TransferState.Transmitting }
        | (Option.none, tx) =>
            { s with tx_buffer := tx,
                     transmit_interrupt_enable := false,
                     state := TransferState.Idle }
    | SpiEvent.receive_available b =>
        let r := s.rx_buffer.push b
        if r.2 then
          { s with rx_buffer := r.1, state := TransferState.Receiving }
        else
          { s with state := TransferState.Error,
                   overrun := true,
                   receive_interrupt_enable := false,
                   error_interrupt_enable := false }

/-- Deliver a sequence of hardware events to `irq_handler`, oldest first. -/
def SPIInterrupt.run_events (s : SPIInterrupt) (events : List SpiEvent) : SPIInterrupt :=
  events.foldl SPIInterrupt.irq_handler s

/-- Modelled from the spec: the explicit caller-invoked recovery /
reinitialization entry point (§4.3): clears the sticky Error state back to
Idle and drops the overrun latch. -/
def SPIInterrupt.reset (s : SPIInterrupt) : SPIInterrupt :=
  { s with state := TransferState.Idle, overrun := false }

/-- An idle engine as constructed (`SPIInterrupt` constructor, hal_spi.h):
empty transmit and receive buffers of the given capacities. -/
def SPIInterrupt.mkIdle (tx_size rx_size : Nat) : SPIInterrupt :=
  { state := TransferState.Idle
    tx_buffer := RingBuffer.mkEmpty tx_size
    rx_buffer := RingBuffer.mkEmpty rx_size
    transmit_interrupt_enable := false
    receive_interrupt_enable := false
    error_interrupt_enable := true
    overrun := false
    data_register_writes := [] }

/-! ## OS semaphore

Translated from `src/source/OS/semaphore.h`: `Sempahore` (sic) stores a count
of integral type `T` and a constant `max_pending_threads`; `wait()` and
`put()` have empty bodies, so both are the identity on the object's state. -/

/-- The `os::Sempahore<T>` class state: the count of integral type `T` and the
immutable maximum pending thread count. -/
structure Sempahore (T : Type) where
  count : T
  max_pending_threads : Nat
deriving Repr, DecidableEq

/-- Translated from the source: `wait()` has an empty body, so it changes
nothing. -/
def Sempahore.wait {T : Type} (s : Sempahore T) : Sempahore T := s

/-- Translated from the source: `put()` has an empty body, so it changes
nothing. -/
def Sempahore.put {T : Type} (s : Sempahore T) : Sempahore T := s

/-! ## Lemmas and claim theorems -/

theorem RingBuffer.contents_length (s : RingBuffer) : s.contents.length = s.count := by
  simp [RingBuffer.contents]

theorem RingBuffer.mkEmpty_WF {cap : Nat} (h : 0 < cap) : (RingBuffer.mkEmpty cap).WF := by
  simp [RingBuffer.mkEmpty, RingBuffer.WF, h]

theorem RingBuffer.contents_mkEmpty (cap : Nat) : (RingBuffer.mkEmpty cap).contents = [] := by
  simp [RingBuffer.mkEmpty, RingBuffer.contents]

theorem RingBuffer.push_reject {s : RingBuffer} (item : Nat)
    (h : ¬ s.count < s.capacity) : s.push item = (s, false) := by
  simp [RingBuffer.push, h]

theorem RingBuffer.push_of_full {s : RingBuffer} (item : Nat)
    (h : s.is_full = true) : s.push item = (s, false) :=
  RingBuffer.push_reject item (by simpa [RingBuffer.is_full, Nat.not_lt] using h)

theorem RingBuffer.push_accepted {s : RingBuffer} (item : Nat) (hw : s.WF)
    (h : s.count < s.capacity) :
    (s.push item).2 = true ∧ (s.push item).1.WF ∧
      (s.push item).1.contents = s.contents ++ [item] := by
  obtain ⟨hcap, hr, hwi, hc, heq⟩ := hw
  have hps : s.push item =
      ({ s with data := RingBuffer.writeAt s.data s.write_index item,
                write_index := (s.write_index + 1) % s.capacity,
                count := s.count + 1 }, true) := by
    simp [RingBuffer.push, h]
  rw [hps]
  refine ⟨rfl, ⟨hcap, hr, Nat.mod_lt _ hcap, h, ?_⟩, ?_⟩
  · show (s.write_index + 1) % s.capacity = (s.read_index + (s.count + 1)) % s.capacity
    rw [heq, Nat.mod_add_mod, ← Nat.add_assoc]
  · simp only [RingBuffer.contents, List.range_succ, List.map_append, List.map_cons,
      List.map_nil]
    congr 1
    · apply List.map_congr_left
      intro i hi
      have hilt : i < s.count := List.mem_range.mp hi
      have hne : (s.read_index + i) % s.capacity ≠ s.write_index := by
        intro hcontra
        rw [heq] at hcontra
        have hmod : i % s.capacity = s.count % s.capacity :=
          Nat.ModEq.add_left_cancel' s.read_index hcontra
        rw [Nat.mod_eq_of_lt (Nat.lt_trans hilt h), Nat.mod_eq_of_lt h] at hmod
        exact Nat.lt_irrefl _ (hmod ▸ hilt)
      simp [RingBuffer.writeAt, hne]
    · simp [RingBuffer.writeAt, heq]

theorem RingBuffer.pop_of_empty {s : RingBuffer} (h : s.count = 0) :
    s.pop = (none, s) := by
  simp [RingBuffer.pop, h]

theorem RingBuffer.pop_head (s : RingBuffer) (hw : s.WF) :
    (s.pop).1 = s.contents.head? := by
  obtain ⟨hcap, hr, hwi, hc, heq⟩ := hw
  rcases hn : s.count with - | k
  · simp [RingBuffer.pop, hn, RingBuffer.contents]
  · simp only [RingBuffer.pop, hn]
    simp only [RingBuffer.contents, hn, List.range_succ_eq_map, List.map_cons,
      List.head?_cons, Nat.add_zero, Nat.mod_eq_of_lt hr]
    simp

theorem RingBuffer.pop_performed {s : RingBuffer} (hw : s.WF) (h : 0 < s.count) :
    (s.pop).2.WF ∧ (s.pop).2.contents = s.contents.tail ∧
      (s.pop).2.count = s.count - 1 := by
  obtain ⟨hcap, hr, hwi, hc, heq⟩ := hw
  obtain ⟨k, hk⟩ := Nat.exists_eq_add_of_lt h
  rw [Nat.zero_add] at hk
  have hne : s.count ≠ 0 := by omega
  have hps : s.pop =
      (some (s.data s.read_index),
       { s with read_index := (s.read_index + 1) % s.capacity,
                count := s.count - 1 }) := by
    simp [RingBuffer.pop, hne]
  rw [hps]
  refine ⟨⟨hcap, Nat.mod_lt _ hcap, hwi, show s.count - 1 ≤ s.capacity by omega, ?_⟩, ?_, rfl⟩
  · show s.write_index = ((s.read_index + 1) % s.capacity + (s.count - 1)) % s.capacity
    rw [heq, Nat.mod_add_mod]
    congr 1
    omega
  · show RingBuffer.contents _ = s.contents.tail
    simp only [RingBuffer.contents, hk, List.range_succ_eq_map, List.map_cons, List.tail_cons,
      Nat.add_sub_cancel, List.map_map]
    apply List.map_congr_left
    intro i hi
    simp only [Function.comp]
    rw [Nat.mod_add_mod]
    congr 1
    congr 1
    omega

theorem RingBuffer.applyOp_WF (s : RingBuffer) (op : RingOp) (hw : s.WF) :
    (s.applyOp op).1.WF ∧
      (s.applyOp op).1.len + (s.applyOp op).2.2 = s.len + (s.applyOp op).2.1 := by
  cases op with
  | push v =>
      by_cases h : s.count < s.capacity
      · obtain ⟨h2, hwf, _⟩ := RingBuffer.push_accepted v hw h
        have hlen : (s.push v).1.len = s.len + 1 := by
          simp [RingBuffer.push, h, RingBuffer.len]
        simp [RingBuffer.applyOp, h2, hwf, hlen]
      · simp [RingBuffer.applyOp, RingBuffer.push_reject v h, hw]
  | pop =>
      by_cases h : s.count = 0
      · simp [RingBuffer.applyOp, RingBuffer.pop_of_empty h, hw]
      · have hpos : 0 < s.count := Nat.pos_of_ne_zero h
        obtain ⟨hwf, _, hcnt⟩ := RingBuffer.pop_performed hw hpos
        have hsome : (s.pop).1.isSome = true := by
          simp [RingBuffer.pop, h]
        simp only [RingBuffer.applyOp, hsome, if_pos]
        refine ⟨hwf, ?_⟩
        simp only [RingBuffer.len, hcnt]
        omega

theorem RingBuffer.runOps_WF (ops : List RingOp) (s : RingBuffer) (hw : s.WF) :
    (s.runOps ops).1.WF ∧
      (s.runOps ops).1.len + (s.runOps ops).2.2 = s.len + (s.runOps ops).2.1 := by
  induction ops generalizing s with
  | nil => simpa [RingBuffer.runOps] using hw
  | cons op rest ih =>
      obtain ⟨hwf1, hlen1⟩ := RingBuffer.applyOp_WF s op hw
      obtain ⟨hwf2, hlen2⟩ := ih (s.applyOp op).1 hwf1
      refine ⟨hwf2, ?_⟩
      simp only [RingBuffer.runOps]
      omega

theorem ResetControlClock.save_cache_consistent (s : ResetControlClock) :
    (s.save_clock_configuration).cache_consistent :=
  ⟨rfl, rfl, rfl, rfl⟩

theorem SPIInterrupt.error_sticky (s : SPIInterrupt) (e : SpiEvent)
    (h : s.state = TransferState.Error) : s.irq_handler e = s := by
  simp [SPIInterrupt.irq_handler, h]

theorem SPIInterrupt.run_events_error_sticky (events : List SpiEvent) (s : SPIInterrupt)
    (h : s.state = TransferState.Error) : s.run_events events = s := by
  induction events with
  | nil => rfl
  | cons e rest ih =>
      show (s.irq_handler e).run_events rest = s
      rw [SPIInterrupt.error_sticky s e h]
      exact ih

theorem SPIInterrupt.run_events_append (s : SPIInterrupt) (a b : List SpiEvent) :
    s.run_events (a ++ b) = (s.run_events a).run_events b := by
  simp [SPIInterrupt.run_events, List.foldl_append]

theorem RingBuffer.pushAll_spec (data : List Nat) (s : RingBuffer) (hw : s.WF)
    (h : s.count + data.length ≤ s.capacity) :
    (data.foldl (fun b v => (b.push v).1) s).WF ∧
      (data.foldl (fun b v => (b.push v).1) s).contents = s.contents ++ data := by
  induction data generalizing s with
  | nil => simpa using hw
  | cons v rest ih =>
      have hlt : s.count < s.capacity := by
        have := h
        simp only [List.length_cons] at this
        omega
      obtain ⟨-, hwf, hcont⟩ := RingBuffer.push_accepted v hw hlt
      have hcnt : (s.push v).1.count = s.count + 1 := by
        have h1 := RingBuffer.contents_length (s.push v).1
        rw [hcont] at h1
        simp [RingBuffer.contents_length] at h1
        omega
      have hcap : (s.push v).1.capacity = s.capacity := by
        simp [RingBuffer.push, hlt]
      obtain ⟨hwf2, hcont2⟩ := ih (s.push v).1 hwf (by
        rw [hcnt, hcap]
        simp only [List.length_cons] at h
        omega)
      refine ⟨hwf2, ?_⟩
      simp only [List.foldl_cons]
      rw [hcont2, hcont, List.append_assoc]
      rfl

theorem SPIInterrupt.tx_drain (l : List Nat) :
    ∀ s : SPIInterrupt, s.state = TransferState.Transmitting → s.tx_buffer.WF →
      s.tx_buffer.contents = l → l ≠ [] →
      (s.run_events (List.replicate l.length SpiEvent.transmit_empty)).state =
          TransferState.Idle ∧
        (s.run_events (List.replicate l.length SpiEvent.transmit_empty)).tx_buffer.count = 0 ∧
        (s.run_events (List.replicate l.length SpiEvent.transmit_empty)).data_register_writes =
          s.data_register_writes ++ l := by
  induction l with
  | nil => intro s _ _ _ hne; exact absurd rfl hne
  | cons b l' ih =>
      intro s hst hwf hcont _
      have hcnt : s.tx_buffer.count = l'.length + 1 := by
        have h1 := RingBuffer.contents_length s.tx_buffer
        rw [hcont] at h1
        simpa using h1.symm
      have hpos : 0 < s.tx_buffer.count := by omega
      have hpop1 : s.tx_buffer.pop.1 = some b := by
        rw [RingBuffer.pop_head _ hwf, hcont]
        rfl
      obtain ⟨hwf2, hcont2, hcnt2⟩ := RingBuffer.pop_performed hwf hpos
      rw [hcont] at hcont2
      simp only [List.tail_cons] at hcont2
      have hcnt2' : s.tx_buffer.pop.2.count = l'.length := by omega
      have hpop : s.tx_buffer.pop = (some b, s.tx_buffer.pop.2) := by
        rw [← hpop1]
      have hsne : ¬ s.state = TransferState.Error := by
        rw [hst]
        intro hc
        cases hc
      by_cases hl : l' = []
      · subst hl
        have hz : s.tx_buffer.pop.2.count = 0 := by simpa using hcnt2'
        have hstep : s.irq_handler SpiEvent.transmit_empty =
            { s with tx_buffer := s.tx_buffer.pop.2,
                     data_register_writes := s.data_register_writes ++ [b],
                     transmit_interrupt_enable := false,
                     state := TransferState.Idle } := by
          rw [SPIInterrupt.irq_handler, if_neg hsne, hpop]
          simp [hz]
        refine ⟨?_, ?_, ?_⟩ <;>
          simp [SPIInterrupt.run_events, hstep, hz]
      · have hz : ¬ s.tx_buffer.pop.2.count = 0 := by
          rw [hcnt2']
          intro hc
          exact hl (List.eq_nil_of_length_eq_zero hc)
        have hstep : s.irq_handler SpiEvent.transmit_empty =
            { s with tx_buffer := s.tx_buffer.pop.2,
                     data_register_writes := s.data_register_writes ++ [b],
                     state := TransferState.Transmitting } := by
          rw [SPIInterrupt.irq_handler, if_neg hsne, hpop]
          simp [hz]
        have hrun : s.run_events (List.replicate (b :: l').length SpiEvent.transmit_empty) =
            (s.irq_handler SpiEvent.transmit_empty).run_events
              (List.replicate l'.length SpiEvent.transmit_empty) := by
          simp only [List.length_cons, List.replicate_succ]
          rfl
        obtain ⟨ha, hb, hc⟩ := ih (s.irq_handler SpiEvent.transmit_empty)
          (by rw [hstep]) (by rw [hstep]; exact hwf2) (by rw [hstep]; exact hcont2) hl
        rw [hrun]
        refine ⟨ha, hb, ?_⟩
        rw [hc, hstep]
        simp

theorem SPIInterrupt.rx_fill (bytes : List Nat) :
    ∀ s : SPIInterrupt,
      (s.state = TransferState.Idle ∨ s.state = TransferState.Receiving) →
      s.rx_buffer.WF → s.rx_buffer.count + bytes.length ≤ s.rx_buffer.capacity →
      ((s.run_events (bytes.map SpiEvent.receive_available)).state = TransferState.Idle ∨
          (s.run_events (bytes.map SpiEvent.receive_available)).state =
            TransferState.Receiving) ∧
        (s.run_events (bytes.map SpiEvent.receive_available)).rx_buffer.WF ∧
        (s.run_events (bytes.map SpiEvent.receive_available)).rx_buffer.count =
          s.rx_buffer.count + bytes.length ∧
        (s.run_events (bytes.map SpiEvent.receive_available)).rx_buffer.capacity =
          s.rx_buffer.capacity := by
  induction bytes with
  | nil =>
      intro s hst hwf _
      exact ⟨hst, hwf, by simp [SPIInterrupt.run_events], rfl⟩
  | cons b rest ih =>
      intro s hst hwf hle
      have hsne : ¬ s.state = TransferState.Error := by
        rcases hst with h | h <;> (rw [h]; intro hc; cases hc)
      have hlt : s.rx_buffer.count < s.rx_buffer.capacity := by
        simp only [List.length_cons] at hle
        omega
      obtain ⟨hacc, hwf2, -⟩ := RingBuffer.push_accepted b hwf hlt
      have hcnt : (s.rx_buffer.push b).1.count = s.rx_buffer.count + 1 := by
        simp [RingBuffer.push, hlt]
      have hcap : (s.rx_buffer.push b).1.capacity = s.rx_buffer.capacity := by
        simp [RingBuffer.push, hlt]
      have hstep : s.irq_handler (SpiEvent.receive_available b) =
          { s with rx_buffer := (s.rx_buffer.push b).1,
                   state := TransferState.Receiving } := by
        rw [SPIInterrupt.irq_handler, if_neg hsne]
        simp [hacc]
      have hrun : s.run_events ((b :: rest).map SpiEvent.receive_available) =
          (s.irq_handler (SpiEvent.receive_available b)).run_events
            (rest.map SpiEvent.receive_available) := rfl
      obtain ⟨ha, hb2, hc, hd⟩ := ih (s.irq_handler (SpiEvent.receive_available b))
        (by rw [hstep]; exact Or.inr rfl)
        (by rw [hstep]; exact hwf2)
        (by
          rw [hstep]
          show (s.rx_buffer.push b).1.count + rest.length ≤ (s.rx_buffer.push b).1.capacity
          rw [hcnt, hcap]
          simp only [List.length_cons] at hle
          omega)
      rw [hrun]
      refine ⟨ha, hb2, ?_, ?_⟩
      · rw [hc, hstep]
        show (s.rx_buffer.push b).1.count + rest.length = s.rx_buffer.count + (b :: rest).length
        rw [hcnt]
        simp
        omega
      · rw [hd, hstep]
        show (s.rx_buffer.push b).1.capacity = s.rx_buffer.capacity
        exact hcap

theorem lor_two_pow_of_testBit {n i : Nat} (h : n.testBit i = true) : n ||| 2 ^ i = n := by
  apply Nat.eq_of_testBit_eq
  intro j
  rw [Nat.testBit_lor]
  by_cases hij : i = j
  · subst hij
    simp [h, Nat.testBit_two_pow_self]
  · simp [Nat.testBit_two_pow_of_ne hij]

/-- C9: for every `ResetControlClock` state (in particular every state
reachable through the public operations), `get_clock_speed` returns the same
value for `Clocks::AHB1`, `Clocks::AHB2` and `Clocks::AHB3`, because the
cached `ClockSpeed` record holds a single `ahb` frequency field shared by all
three AHB bus queries. -/
theorem claim_C9_ahb_shared (s : ResetControlClock) :
    s.get_clock_speed Clocks.AHB1 = s.get_clock_speed Clocks.AHB2 ∧
      s.get_clock_speed Clocks.AHB2 = s.get_clock_speed Clocks.AHB3 ∧
      s.get_clock_speed Clocks.AHB1 = s.clock_configuration.ahb :=
  ⟨rfl, rfl, rfl⟩

/-- C10: for every `Sempahore` instance over every integral count type and
every initial count, `wait()` and `put()` return immediately and leave the
entire semaphore state (count and max_pending_threads) unchanged, because both
bodies are empty. -/
theorem claim_C10_semaphore_noop {T : Type} (s : Sempahore T) :
    s.wait = s ∧ s.put = s :=
  ⟨rfl, rfl⟩

/-- C8: for every clock_id of every bus, enabling a peripheral clock whose
clock-gating bit is already set leaves the whole register state unchanged —
the enable operation is idempotent. -/
theorem claim_C8_enable_idempotent (s : ResetControlClock) :
    (∀ clock : AHB1Clocks, s.ahb1_enable_register.testBit clock.bit = true →
        s.set_ahb_clock_ahb1 clock true = s) ∧
      (∀ clock : AHB2Clocks, s.ahb2_enable_register.testBit clock.bit = true →
        s.set_ahb_clock_ahb2 clock true = s) ∧
      (∀ clock : AHB3Clocks, s.ahb3_enable_register.testBit clock.bit = true →
        s.set_ahb_clock_ahb3 clock true = s) ∧
      (∀ clock : APB1Clocks, s.apb1_enable_register.testBit clock.bit = true →
        s.set_apb_clock_apb1 clock true = s) ∧
      (∀ clock : APB2Clocks, s.apb2_enable_register.testBit clock.bit = true →
        s.set_apb_clock_apb2 clock true = s) := by
  refine ⟨?_, ?_, ?_, ?_, ?_⟩ <;>
    · intro clock h
      have hreg := lor_two_pow_of_testBit h
      first
        | (show ResetControlClock.set_ahb_clock_ahb1 _ _ _ = _
           rw [ResetControlClock.set_ahb_clock_ahb1, ResetControlClock.apply_enable_bit]
           simp only [if_pos, hreg])
        | (show ResetControlClock.set_ahb_clock_ahb2 _ _ _ = _
           rw [ResetControlClock.set_ahb_clock_ahb2, ResetControlClock.apply_enable_bit]
           simp only [if_pos, hreg])
        | (show ResetControlClock.set_ahb_clock_ahb3 _ _ _ = _
           rw [ResetControlClock.set_ahb_clock_ahb3, ResetControlClock.apply_enable_bit]
           simp only [if_pos, hreg])
        | (show ResetControlClock.set_apb_clock_apb1 _ _ _ = _
           rw [ResetControlClock.set_apb_clock_apb1, ResetControlClock.apply_enable_bit]
           simp only [if_pos, hreg])
        | (show ResetControlClock.set_apb_clock_apb2 _ _ _ = _
           rw [ResetControlClock.set_apb_clock_apb2, ResetControlClock.apply_enable_bit]
           simp only [if_pos, hreg])

/-- C2: `configure_main_pll` fails with `SourceBusyError` whenever the PLL is
already the active system clock source, fails with `InvalidPLLConfiguration`
whenever a divisor/frequency invariant of the parameters is violated (and the
PLL is not busy), and in every failure case the error is produced before any
register write: the returned state — register fields and the cached
`ClockConfiguration` alike — is exactly the input state (all-or-nothing). -/
theorem claim_C2_configure_pll_errors (s : ResetControlClock) (clock_source : PLLSource)
    (oscillator_speed pll_m pll_n : Nat) (pll_p : PLLOutputPrescaler) (pll_q : Nat) :
    (s.system_clock_source = SystemClockSource.phase_locked_loop →
        s.configure_main_pll clock_source oscillator_speed pll_m pll_n pll_p pll_q =
          (s, some RCCError.SourceBusyError)) ∧
      (s.system_clock_source ≠ SystemClockSource.phase_locked_loop →
        PLLConfiguration.valid
            { clock_source := clock_source, oscillator_speed := oscillator_speed,
              pll_m := pll_m, pll_n := pll_n, pll_p := pll_p, pll_q := pll_q } = false →
        s.configure_main_pll clock_source oscillator_speed pll_m pll_n pll_p pll_q =
          (s, some RCCError.InvalidPLLConfiguration)) ∧
      (∀ e : RCCError,
        (s.configure_main_pll clock_source oscillator_speed pll_m pll_n pll_p pll_q).2 =
            some e →
        (s.configure_main_pll clock_source oscillator_speed pll_m pll_n pll_p pll_q).1 = s) := by
  refine ⟨?_, ?_, ?_⟩
  · intro h
    simp [ResetControlClock.configure_main_pll, h]
  · intro h hv
    simp [ResetControlClock.configure_main_pll, h, hv]
  · intro e he
    by_cases h : s.system_clock_source = SystemClockSource.phase_locked_loop
    · simp [ResetControlClock.configure_main_pll, h]
    · by_cases hv : PLLConfiguration.valid
          { clock_source := clock_source, oscillator_speed := oscillator_speed,
            pll_m := pll_m, pll_n := pll_n, pll_p := pll_p, pll_q := pll_q } = true
      · simp [ResetControlClock.configure_main_pll, h, hv] at he
      · simp [ResetControlClock.configure_main_pll, h, hv]

/-- C6: `set_system_clock_source` polls the target source's ready bit for at
most a bounded number of polls; if the bit is never seen within the bound the
call fails with `SourceNotReadyError` and does not switch (state unchanged),
and on success the switch happened only after the ready bit was observed
(some poll within the bound saw it) and every derived bus frequency has been
recomputed and cached. -/
theorem claim_C6_set_clock_source (s : ResetControlClock) (source : SystemClockSource)
    (ready : Nat → Bool) (timeout : Nat) :
    ((∀ t, t < timeout → ready t = false) →
        s.set_system_clock_source source ready timeout =
          (s, some RCCError.SourceNotReadyError)) ∧
      ((s.set_system_clock_source source ready timeout).2 = Option.none →
        (∃ t, t < timeout ∧ ready t = true) ∧
          (s.set_system_clock_source source ready timeout).1.system_clock_source = source ∧
          (s.set_system_clock_source source ready timeout).1.cache_consistent) := by
  refine ⟨?_, ?_⟩
  · intro h
    have hany : (List.range timeout).any ready = false := by
      rw [List.any_eq_false]
      intro t ht
      rw [h t (List.mem_range.mp ht)]
      exact Bool.false_ne_true
    simp [ResetControlClock.set_system_clock_source, hany]
  · intro h2
    by_cases hany : (List.range timeout).any ready = true
    · obtain ⟨t, ht, hr⟩ := List.any_eq_true.mp hany
      refine ⟨⟨t, List.mem_range.mp ht, hr⟩, ?_, ?_⟩
      · simp [ResetControlClock.set_system_clock_source, hany,
          ResetControlClock.save_clock_configuration]
      · have hform : (s.set_system_clock_source source ready timeout).1 =
            ResetControlClock.save_clock_configuration
              { s with system_clock_source := source } := by
          simp [ResetControlClock.set_system_clock_source, hany]
        rw [hform]
        exact ResetControlClock.save_cache_consistent _
    · rw [Bool.not_eq_true] at hany
      simp [ResetControlClock.set_system_clock_source, hany] at h2

/-- C7: after every mutating clock-tree operation — a successful PLL
reconfiguration, a successful system-clock-source switch, or any bus
prescaler change — the cached configuration is fresh: each cached bus
frequency equals the system clock divided by that bus's prescaler divisor;
and `get_clock_speed` is a pure read of the cached value for every bus, with
no recomputation and no state change. -/
theorem claim_C7_cache_fresh (s : ResetControlClock) :
    (∀ (clock_source : PLLSource) (oscillator_speed pll_m pll_n : Nat)
        (pll_p : PLLOutputPrescaler) (pll_q : Nat),
        (s.configure_main_pll clock_source oscillator_speed pll_m pll_n pll_p pll_q).2 =
            Option.none →
        (s.configure_main_pll clock_source oscillator_speed pll_m pll_n
            pll_p pll_q).1.cache_consistent) ∧
      (∀ (source : SystemClockSource) (ready : Nat → Bool) (timeout : Nat),
        (s.set_system_clock_source source ready timeout).2 = Option.none →
        (s.set_system_clock_source source ready timeout).1.cache_consistent) ∧
      (∀ prescaler : AHBPrescaler, (s.configure_ahb_clock prescaler).cache_consistent) ∧
      (∀ prescaler : APBPrescaler, (s.configure_apb1_clock prescaler).cache_consistent) ∧
      (∀ prescaler : APBPrescaler, (s.configure_apb2_clock prescaler).cache_consistent) ∧
      (s.get_clock_speed Clocks.AHB1 = s.clock_configuration.ahb ∧
        s.get_clock_speed Clocks.AHB2 = s.clock_configuration.ahb ∧
        s.get_clock_speed Clocks.AHB3 = s.clock_configuration.ahb ∧
        s.get_clock_speed Clocks.APB1 = s.clock_configuration.apb1 ∧
        s.get_clock_speed Clocks.APB2 = s.clock_configuration.apb2) := by
  refine ⟨?_, ?_, ?_, ?_, ?_, rfl, rfl, rfl, rfl, rfl⟩
  · intro clock_source oscillator_speed pll_m pll_n pll_p pll_q h
    by_cases hb : s.system_clock_source = SystemClockSource.phase_locked_loop
    · simp [ResetControlClock.configure_main_pll, hb] at h
    · by_cases hv : PLLConfiguration.valid
          { clock_source := clock_source, oscillator_speed := oscillator_speed,
            pll_m := pll_m, pll_n := pll_n, pll_p := pll_p, pll_q := pll_q } = true
      · have hform : (s.configure_main_pll clock_source oscillator_speed pll_m pll_n
              pll_p pll_q).1 =
            ResetControlClock.save_clock_configuration
              { s with pll := some ⟨clock_source, oscillator_speed, pll_m, pll_n, pll_p, pll_q⟩ } := by
          simp [ResetControlClock.configure_main_pll, hb, hv]
        rw [hform]
        exact ResetControlClock.save_cache_consistent _
      · simp [ResetControlClock.configure_main_pll, hb, hv] at h
  · intro source ready timeout h
    by_cases hany : (List.range timeout).any ready = true
    · have hform : (s.set_system_clock_source source ready timeout).1 =
          ResetControlClock.save_clock_configuration
            { s with system_clock_source := source } := by
        simp [ResetControlClock.set_system_clock_source, hany]
      rw [hform]
      exact ResetControlClock.save_cache_consistent _
    · rw [Bool.not_eq_true] at hany
      simp [ResetControlClock.set_system_clock_source, hany] at h
  · intro prescaler
    exact ResetControlClock.save_cache_consistent _
  · intro prescaler
    exact ResetControlClock.save_cache_consistent _
  · intro prescaler
    exact ResetControlClock.save_cache_consistent _

/-- C1: for every valid set of PLL parameters (per the §3 ranges) and every
starting state not already running from the PLL, `configure_main_pll` followed
by a successful switch to the PLL yields a cached system clock of exactly
`input_frequency / m * n / p` in integer arithmetic; because the conclusion
holds for an arbitrary starting state, the value depends only on the
parameters — repeated reconfiguration cannot drift it.  With the AHB prescaler
at `prescaler_none`, `get_clock_speed(AHB1)` returns exactly that frequency
(the 16 MHz HSI, M=16, N=336, P=4 instance returning 84 MHz is the witness). -/
theorem claim_C1_pll_frequency (s : ResetControlClock) (clock_source : PLLSource)
    (oscillator_speed pll_m pll_n : Nat) (pll_p : PLLOutputPrescaler) (pll_q : Nat)
    (ready : Nat → Bool) (timeout : Nat)
    (hbusy : s.system_clock_source ≠ SystemClockSource.phase_locked_loop)
    (hvalid : PLLConfiguration.valid
      { clock_source := clock_source, oscillator_speed := oscillator_speed,
        pll_m := pll_m, pll_n := pll_n, pll_p := pll_p, pll_q := pll_q } = true)
    (hready : (List.range timeout).any ready = true) :
    ∃ s1 s2 : ResetControlClock,
      s.configure_main_pll clock_source oscillator_speed pll_m pll_n pll_p pll_q =
          (s1, Option.none) ∧
        s1.set_system_clock_source SystemClockSource.phase_locked_loop ready timeout =
          (s2, Option.none) ∧
        s2.clock_configuration.system_clock =
          oscillator_speed / pll_m * pll_n / pll_p.divisor ∧
        s2.get_clock_speed Clocks.AHB1 =
          oscillator_speed / pll_m * pll_n / pll_p.divisor / s.ahb_prescaler.divisor ∧
        (s.ahb_prescaler = AHBPrescaler.prescaler_none →
          s2.get_clock_speed Clocks.AHB1 =
            oscillator_speed / pll_m * pll_n / pll_p.divisor) := by
  refine ⟨ResetControlClock.save_clock_configuration
      { s with pll := some ⟨clock_source, oscillator_speed, pll_m, pll_n, pll_p, pll_q⟩ },
    ResetControlClock.save_clock_configuration
      { ResetControlClock.save_clock_configuration
          { s with pll := some ⟨clock_source, oscillator_speed, pll_m, pll_n, pll_p, pll_q⟩ }
        with system_clock_source := SystemClockSource.phase_locked_loop },
    ?_, ?_, rfl, rfl, ?_⟩
  · simp [ResetControlClock.configure_main_pll, hbusy, hvalid]
  · simp [ResetControlClock.set_system_clock_source, hready]
  · intro hnone
    rw [show (ResetControlClock.save_clock_configuration
        { ResetControlClock.save_clock_configuration
            { s with pll := some ⟨clock_source, oscillator_speed, pll_m, pll_n, pll_p, pll_q⟩ }
          with system_clock_source :=
            SystemClockSource.phase_locked_loop }).get_clock_speed Clocks.AHB1 =
        oscillator_speed / pll_m * pll_n / pll_p.divisor / s.ahb_prescaler.divisor from rfl,
      hnone]
    exact Nat.div_one _

/-- C3: for every sequence of push/pop operations run from a fresh buffer,
`len()` afterwards equals accepted pushes minus performed pops (stated
subtraction-free as len + pops = accepted); the structural invariant
0 ≤ count ≤ capacity with both indices in [0, capacity) holds after every
operation; pushing into a full buffer under the reject policy returns the
buffer unchanged (so `len()` is untouched); and `pop()` returns the oldest
item — the head of the contents in arrival order — or an empty result when
count == 0, while an accepted push appends to the back (FIFO order). -/
theorem claim_C3_ringbuffer (ops : List RingOp) (cap : Nat) (hcap : 0 < cap) :
    ((RingBuffer.mkEmpty cap).runOps ops).1.len + ((RingBuffer.mkEmpty cap).runOps ops).2.2 =
        ((RingBuffer.mkEmpty cap).runOps ops).2.1 ∧
      ((RingBuffer.mkEmpty cap).runOps ops).1.WF ∧
      (∀ (s : RingBuffer) (op : RingOp), s.WF → (s.applyOp op).1.WF) ∧
      (∀ (s : RingBuffer) (item : Nat), s.is_full = true →
        s.push item = (s, false)) ∧
      (∀ s : RingBuffer, s.count = 0 → s.pop = (none, s)) ∧
      (∀ s : RingBuffer, s.WF → s.pop.1 = s.contents.head?) ∧
      (∀ (s : RingBuffer) (item : Nat), s.WF → s.count < s.capacity →
        (s.push item).1.contents = s.contents ++ [item]) := by
  obtain ⟨hwf, hlen⟩ :=
    RingBuffer.runOps_WF ops (RingBuffer.mkEmpty cap) (RingBuffer.mkEmpty_WF hcap)
  refine ⟨?_, hwf, ?_, ?_, ?_, ?_, ?_⟩
  · simpa [RingBuffer.mkEmpty, RingBuffer.len] using hlen
  · intro s op h
    exact (RingBuffer.applyOp_WF s op h).1
  · intro s item h
    exact RingBuffer.push_of_full item h
  · intro s h
    exact RingBuffer.pop_of_empty h
  · intro s h
    exact RingBuffer.pop_head s h
  · intro s item h hlt
    exact (RingBuffer.push_accepted item h hlt).2.2

/-- C4: for every N and every transmit buffer seeded with N bytes via `send`
on an idle engine (N within the buffer's capacity), exactly N transmit-empty
interrupt events drain the buffer to empty and leave the engine in Idle, and
the bytes reach the peripheral data register in FIFO order — the data-register
write log equals the sent byte list. -/
theorem claim_C4_send_drain (tx_size rx_size : Nat) (data : List Nat)
    (htx : 0 < tx_size) (hlen : data.length ≤ tx_size) :
    (((SPIInterrupt.mkIdle tx_size rx_size).send data).run_events
        (List.replicate data.length SpiEvent.transmit_empty)).state = TransferState.Idle ∧
      (((SPIInterrupt.mkIdle tx_size rx_size).send data).run_events
        (List.replicate data.length SpiEvent.transmit_empty)).tx_buffer.is_empty = true ∧
      (((SPIInterrupt.mkIdle tx_size rx_size).send data).run_events
        (List.replicate data.length SpiEvent.transmit_empty)).data_register_writes = data := by
  rcases data with - | ⟨b, rest⟩
  · exact ⟨rfl, rfl, rfl⟩
  · have hne : (b :: rest) ≠ ([] : List Nat) := by
      intro hc
      cases hc
    have hsend : (SPIInterrupt.mkIdle tx_size rx_size).send (b :: rest) =
        { SPIInterrupt.mkIdle tx_size rx_size with
            tx_buffer := (b :: rest).foldl (fun bf v => (bf.push v).1)
              (RingBuffer.mkEmpty tx_size),
            transmit_interrupt_enable := true,
            state := TransferState.Transmitting } := by
      rw [SPIInterrupt.send]
      rfl
    obtain ⟨hwf, hcont⟩ := RingBuffer.pushAll_spec (b :: rest) (RingBuffer.mkEmpty tx_size)
      (RingBuffer.mkEmpty_WF htx) (by simpa [RingBuffer.mkEmpty] using hlen)
    rw [RingBuffer.contents_mkEmpty, List.nil_append] at hcont
    obtain ⟨ha, hb2, hc⟩ := SPIInterrupt.tx_drain (b :: rest)
      ((SPIInterrupt.mkIdle tx_size rx_size).send (b :: rest))
      (by rw [hsend]) (by rw [hsend]; exact hwf) (by rw [hsend]; exact hcont) hne
    refine ⟨ha, ?_, ?_⟩
    · simp only [RingBuffer.is_empty]
      simpa using hb2
    · rw [hc, hsend]
      simp [SPIInterrupt.mkIdle]

/-- C5: delivering more receive-data-available events than the receive
buffer's capacity drives the engine into the Error state exactly once — the
state is not Error through the first `cap` events, is Error from event
`cap + 1` on, and every later event leaves the engine completely unchanged
(no further receive processing); the overrun condition is latched; the
overflowing byte is dropped (the receive buffer is exactly what it was before
the overflowing event); `irq_handler` never leaves the Error state on its own;
and only the explicit caller-invoked recovery returns the engine to Idle. -/
theorem claim_C5_rx_overrun (tx_size cap : Nat) (bytes : List Nat)
    (hcap : 0 < cap) (hlen : cap < bytes.length) :
    (∀ i, i ≤ cap →
        ((SPIInterrupt.mkIdle tx_size cap).run_events
            ((bytes.map SpiEvent.receive_available).take i)).state ≠ TransferState.Error) ∧
      ((SPIInterrupt.mkIdle tx_size cap).run_events
          ((bytes.map SpiEvent.receive_available).take (cap + 1))).state =
        TransferState.Error ∧
      ((SPIInterrupt.mkIdle tx_size cap).run_events
          ((bytes.map SpiEvent.receive_available).take (cap + 1))).overrun = true ∧
      ((SPIInterrupt.mkIdle tx_size cap).run_events
          ((bytes.map SpiEvent.receive_available).take (cap + 1))).rx_buffer =
        ((SPIInterrupt.mkIdle tx_size cap).run_events
          ((bytes.map SpiEvent.receive_available).take cap)).rx_buffer ∧
      (∀ i, cap < i →
        (SPIInterrupt.mkIdle tx_size cap).run_events
            ((bytes.map SpiEvent.receive_available).take i) =
          (SPIInterrupt.mkIdle tx_size cap).run_events
            ((bytes.map SpiEvent.receive_available).take (cap + 1))) ∧
      ((SPIInterrupt.mkIdle tx_size cap).run_events
          (bytes.map SpiEvent.receive_available)).state = TransferState.Error ∧
      (∀ (s : SPIInterrupt) (e : SpiEvent), s.state = TransferState.Error →
        s.irq_handler e = s) ∧
      (((SPIInterrupt.mkIdle tx_size cap).run_events
          (bytes.map SpiEvent.receive_available)).reset).state = TransferState.Idle := by
  have hfill : ∀ i, i ≤ cap →
      (((SPIInterrupt.mkIdle tx_size cap).run_events
          ((bytes.map SpiEvent.receive_available).take i)).state = TransferState.Idle ∨
        ((SPIInterrupt.mkIdle tx_size cap).run_events
          ((bytes.map SpiEvent.receive_available).take i)).state = TransferState.Receiving) ∧
      ((SPIInterrupt.mkIdle tx_size cap).run_events
          ((bytes.map SpiEvent.receive_available).take i)).rx_buffer.WF ∧
      ((SPIInterrupt.mkIdle tx_size cap).run_events
          ((bytes.map SpiEvent.receive_available).take i)).rx_buffer.count =
        (bytes.take i).length ∧
      ((SPIInterrupt.mkIdle tx_size cap).run_events
          ((bytes.map SpiEvent.receive_available).take i)).rx_buffer.capacity = cap := by
    intro i hi
    rw [show (bytes.map SpiEvent.receive_available).take i =
        (bytes.take i).map SpiEvent.receive_available from (List.map_take _ _ _).symm]
    obtain ⟨h1, h2, h3, h4⟩ := SPIInterrupt.rx_fill (bytes.take i)
      (SPIInterrupt.mkIdle tx_size cap) (Or.inl rfl) (RingBuffer.mkEmpty_WF hcap)
      (by
        show 0 + (bytes.take i).length ≤ cap
        rw [Nat.zero_add]
        exact Nat.le_trans (List.length_take_le _ _) hi)
    refine ⟨h1, h2, ?_, h4⟩
    rw [h3]
    show 0 + (bytes.take i).length = (bytes.take i).length
    exact Nat.zero_add _
  obtain ⟨hstc, hwfc, hcntc, hcapc⟩ := hfill cap (Nat.le_refl cap)
  have hcntc2 : ((SPIInterrupt.mkIdle tx_size cap).run_events
      ((bytes.map SpiEvent.receive_available).take cap)).rx_buffer.count = cap := by
    rw [hcntc, List.length_take_of_le (Nat.le_of_lt hlen)]
  have hcaplt : cap < (bytes.map SpiEvent.receive_available).length := by
    rw [List.length_map]
    exact hlen
  have hstep_eq : (SPIInterrupt.mkIdle tx_size cap).run_events
      ((bytes.map SpiEvent.receive_available).take (cap + 1)) =
      ((SPIInterrupt.mkIdle tx_size cap).run_events
        ((bytes.map SpiEvent.receive_available).take cap)).irq_handler
        (SpiEvent.receive_available (bytes.get ⟨cap, hlen⟩)) := by
    rw [List.take_succ, List.getElem?_eq_getElem hcaplt, SPIInterrupt.run_events_append]
    simp only [List.getElem_map, Option.toList_some]
    rfl
  have hsne : ¬ ((SPIInterrupt.mkIdle tx_size cap).run_events
      ((bytes.map SpiEvent.receive_available).take cap)).state = TransferState.Error := by
    rcases hstc with h | h <;> (rw [h]; intro hc; cases hc)
  have hfull : ¬ ((SPIInterrupt.mkIdle tx_size cap).run_events
      ((bytes.map SpiEvent.receive_available).take cap)).rx_buffer.count <
      ((SPIInterrupt.mkIdle tx_size cap).run_events
        ((bytes.map SpiEvent.receive_available).take cap)).rx_buffer.capacity := by
    rw [hcntc2, hcapc]
    omega
  have hpush := RingBuffer.push_reject (bytes.get ⟨cap, hlen⟩) hfull
  simp only [List.get_eq_getElem] at hpush
  have hstep : ((SPIInterrupt.mkIdle tx_size cap).run_events
      ((bytes.map SpiEvent.receive_available).take cap)).irq_handler
      (SpiEvent.receive_available (bytes.get ⟨cap, hlen⟩)) =
      { (SPIInterrupt.mkIdle tx_size cap).run_events
          ((bytes.map SpiEvent.receive_available).take cap) with
        state := TransferState.Error,
        overrun := true,
        receive_interrupt_enable := false,
        error_interrupt_enable := false } := by
    rw [SPIInterrupt.irq_handler, if_neg hsne]
    simp [hpush]
  have hErr : ((SPIInterrupt.mkIdle tx_size cap).run_events
      ((bytes.map SpiEvent.receive_available).take (cap + 1))).state =
      TransferState.Error := by
    rw [hstep_eq, hstep]
  have hlater : ∀ i, cap < i →
      (SPIInterrupt.mkIdle tx_size cap).run_events
          ((bytes.map SpiEvent.receive_available).take i) =
        (SPIInterrupt.mkIdle tx_size cap).run_events
          ((bytes.map SpiEvent.receive_available).take (cap + 1)) := by
    intro i hi
    rw [show i = (cap + 1) + (i - (cap + 1)) by omega, List.take_add,
      SPIInterrupt.run_events_append]
    exact SPIInterrupt.run_events_error_sticky _ _ hErr
  have hfin : (SPIInterrupt.mkIdle tx_size cap).run_events
      (bytes.map SpiEvent.receive_available) =
      (SPIInterrupt.mkIdle tx_size cap).run_events
        ((bytes.map SpiEvent.receive_available).take (cap + 1)) := by
    conv_lhs =>
      rw [show bytes.map SpiEvent.receive_available =
          (bytes.map SpiEvent.receive_available).take
            (bytes.map SpiEvent.receive_available).length from
          (List.take_length _).symm]
    exact hlater _ hcaplt
  refine ⟨?_, hErr, ?_, ?_, hlater, ?_, ?_, ?_⟩
  · intro i hi
    obtain ⟨h1, -, -, -⟩ := hfill i hi
    rcases h1 with h | h <;> (rw [h]; intro hc; cases hc)
  · rw [hstep_eq, hstep]
  · rw [hstep_eq, hstep]
  · rw [hfin]
    exact hErr
  · intro s e h
    exact SPIInterrupt.error_sticky s e h
  · rfl

/-- Witness for C1: the spec's end-to-end scenario — HSI at 16 MHz, M=16,
N=336, P=prescaler_4, then switching to the PLL — yields
`get_clock_speed(AHB1) = 84000000` from the hardware-reset state (whose AHB
prescaler is `prescaler_none`). -/
theorem claim_C1_witness :
    ResetControlClock.reset_state.system_clock_source ≠
        SystemClockSource.phase_locked_loop ∧
      PLLConfiguration.valid ⟨PLLSource.high_speed_internal, 16000000, 16, 336,
        PLLOutputPrescaler.prescaler_4, 7⟩ = true ∧
      (List.range 1).any (fun _ => true) = true ∧
      ∃ s1 s2 : ResetControlClock,
        ResetControlClock.reset_state.configure_main_pll PLLSource.high_speed_internal
            16000000 16 336 PLLOutputPrescaler.prescaler_4 7 = (s1, Option.none) ∧
          s1.set_system_clock_source SystemClockSource.phase_locked_loop
            (fun _ => true) 1 = (s2, Option.none) ∧
          s2.get_clock_speed Clocks.AHB1 = 84000000 := by
  refine ⟨by decide, by decide, by decide, ?_⟩
  obtain ⟨s1, s2, h1, h2, h3, h4, h5⟩ := claim_C1_pll_frequency
    ResetControlClock.reset_state PLLSource.high_speed_internal 16000000 16 336
    PLLOutputPrescaler.prescaler_4 7 (fun _ => true) 1 (by decide) (by decide) (by decide)
  refine ⟨s1, s2, h1, h2, ?_⟩
  rw [h5 rfl]
  decide

/-- Witness for C2: reconfiguring while the PLL is the active source fails
with `SourceBusyError`, and M=0 (input invariant violated) fails with
`InvalidPLLConfiguration`; both leave the state untouched. -/
theorem claim_C2_witness :
    ({ ResetControlClock.reset_state with
        system_clock_source := SystemClockSource.phase_locked_loop }).configure_main_pll
        PLLSource.high_speed_internal 16000000 16 336 PLLOutputPrescaler.prescaler_4 7 =
      ({ ResetControlClock.reset_state with
          system_clock_source := SystemClockSource.phase_locked_loop },
        some RCCError.SourceBusyError) ∧
      ResetControlClock.reset_state.configure_main_pll PLLSource.high_speed_internal
          16000000 0 336 PLLOutputPrescaler.prescaler_4 7 =
        (ResetControlClock.reset_state, some RCCError.InvalidPLLConfiguration) := by
  constructor
  · exact (claim_C2_configure_pll_errors _ _ _ _ _ _ _).1 rfl
  · exact (claim_C2_configure_pll_errors _ _ _ _ _ _ _).2.1 (by decide) (by decide)

/-- Witness for C3: running push 5, push 6, push 7, pop on a fresh buffer of
capacity 2 (the third push is rejected, the pop is performed) keeps the
accounting equation and the structural invariant. -/
theorem claim_C3_witness :
    0 < 2 ∧
      ((RingBuffer.mkEmpty 2).runOps
            [RingOp.push 5, RingOp.push 6, RingOp.push 7, RingOp.pop]).1.len +
          ((RingBuffer.mkEmpty 2).runOps
            [RingOp.push 5, RingOp.push 6, RingOp.push 7, RingOp.pop]).2.2 =
        ((RingBuffer.mkEmpty 2).runOps
            [RingOp.push 5, RingOp.push 6, RingOp.push 7, RingOp.pop]).2.1 ∧
      ((RingBuffer.mkEmpty 2).runOps
          [RingOp.push 5, RingOp.push 6, RingOp.push 7, RingOp.pop]).1.WF :=
  ⟨by decide,
    (claim_C3_ringbuffer [RingOp.push 5, RingOp.push 6, RingOp.push 7, RingOp.pop] 2
      (by decide)).1,
    (claim_C3_ringbuffer [RingOp.push 5, RingOp.push 6, RingOp.push 7, RingOp.pop] 2
      (by decide)).2.1⟩

/-- Witness for C4: the spec's end-to-end scenario — `send([0xA5, 0x3C], 2)`
on an idle engine followed by two transmit-empty events writes 0xA5 then 0x3C
to the data register, drains the buffer and returns the engine to Idle. -/
theorem claim_C4_witness :
    0 < 2 ∧ ([0xA5, 0x3C] : List Nat).length ≤ 2 ∧
      (((SPIInterrupt.mkIdle 2 2).send [0xA5, 0x3C]).run_events
          (List.replicate ([0xA5, 0x3C] : List Nat).length
            SpiEvent.transmit_empty)).state = TransferState.Idle ∧
      (((SPIInterrupt.mkIdle 2 2).send [0xA5, 0x3C]).run_events
          (List.replicate ([0xA5, 0x3C] : List Nat).length
            SpiEvent.transmit_empty)).tx_buffer.is_empty = true ∧
      (((SPIInterrupt.mkIdle 2 2).send [0xA5, 0x3C]).run_events
          (List.replicate ([0xA5, 0x3C] : List Nat).length
            SpiEvent.transmit_empty)).data_register_writes = [0xA5, 0x3C] := by
  obtain ⟨h1, h2, h3⟩ := claim_C4_send_drain 2 2 [0xA5, 0x3C] (by decide) (by decide)
  exact ⟨by decide, by decide, h1, h2, h3⟩

/-- Witness for C5: three receive events against a two-slot receive buffer
latch Error and overrun at the third event, and the final engine state is the
sticky Error. -/
theorem claim_C5_witness :
    0 < 2 ∧ 2 < ([1, 2, 3] : List Nat).length ∧
      ((SPIInterrupt.mkIdle 1 2).run_events
          ((([1, 2, 3] : List Nat).map SpiEvent.receive_available).take (2 + 1))).state =
        TransferState.Error ∧
      ((SPIInterrupt.mkIdle 1 2).run_events
          ((([1, 2, 3] : List Nat).map SpiEvent.receive_available).take (2 + 1))).overrun =
        true ∧
      ((SPIInterrupt.mkIdle 1 2).run_events
          (([1, 2, 3] : List Nat).map SpiEvent.receive_available)).state =
        TransferState.Error ∧
      (((SPIInterrupt.mkIdle 1 2).run_events
          (([1, 2, 3] : List Nat).map SpiEvent.receive_available)).reset).state =
        TransferState.Idle := by
  obtain ⟨-, h2, h3, -, -, h6, -, h8⟩ :=
    claim_C5_rx_overrun 1 2 [1, 2, 3] (by decide) (by decide)
  exact ⟨by decide, by decide, h2, h3, h6, h8⟩

/-- Witness for C6: with a ready bit that never sets, a two-poll switch to the
external oscillator times out with `SourceNotReadyError` and no state change;
with a ready bit always set, the switch succeeds, the source is the external
oscillator, and the cache is consistent. -/
theorem claim_C6_witness :
    ResetControlClock.reset_state.set_system_clock_source
        SystemClockSource.high_speed_external (fun _ => false) 2 =
      (ResetControlClock.reset_state, some RCCError.SourceNotReadyError) ∧
      ((∃ t, t < 3 ∧ (fun _ => true : Nat → Bool) t = true) ∧
        (ResetControlClock.reset_state.set_system_clock_source
            SystemClockSource.high_speed_external (fun _ => true) 3).1.system_clock_source =
          SystemClockSource.high_speed_external ∧
        (ResetControlClock.reset_state.set_system_clock_source
            SystemClockSource.high_speed_external (fun _ => true) 3).1.cache_consistent) := by
  constructor
  · exact (claim_C6_set_clock_source _ _ _ _).1 (fun t ht => rfl)
  · exact (claim_C6_set_clock_source _ _ _ _).2 (by decide)

/-- Witness for C7: a successful PLL configuration from reset, an AHB
prescaler change and an APB1 prescaler change all leave a consistent cache,
and `get_clock_speed` reads the cached APB2 field. -/
theorem claim_C7_witness :
    (ResetControlClock.reset_state.configure_main_pll PLLSource.high_speed_internal
        16000000 16 336 PLLOutputPrescaler.prescaler_4 7).1.cache_consistent ∧
      (ResetControlClock.reset_state.configure_ahb_clock
        AHBPrescaler.prescaler_2).cache_consistent ∧
      (ResetControlClock.reset_state.configure_apb1_clock
        APBPrescaler.prescaler_4).cache_consistent ∧
      ResetControlClock.reset_state.get_clock_speed Clocks.APB2 =
        ResetControlClock.reset_state.clock_configuration.apb2 :=
  ⟨(claim_C7_cache_fresh ResetControlClock.reset_state).1 PLLSource.high_speed_internal
      16000000 16 336 PLLOutputPrescaler.prescaler_4 7 (by decide),
    (claim_C7_cache_fresh ResetControlClock.reset_state).2.2.1 AHBPrescaler.prescaler_2,
    (claim_C7_cache_fresh ResetControlClock.reset_state).2.2.2.1 APBPrescaler.prescaler_4,
    (claim_C7_cache_fresh ResetControlClock.reset_state).2.2.2.2.2.2.2.2.2⟩

/-- Witness for C8: with GPIO A's gating bit already set in the AHB1 enable
register, enabling GPIO A again leaves the state exactly unchanged. -/
theorem claim_C8_witness :
    ({ ResetControlClock.reset_state with
        ahb1_enable_register := 1 }).ahb1_enable_register.testBit
      AHB1Clocks.gpio_a.bit = true ∧
      ({ ResetControlClock.reset_state with
          ahb1_enable_register := 1 }).set_ahb_clock_ahb1 AHB1Clocks.gpio_a true =
        { ResetControlClock.reset_state with ahb1_enable_register := 1 } := by
  refine ⟨by decide, ?_⟩
  exact (claim_C8_enable_idempotent _).1 AHB1Clocks.gpio_a (by decide)
